import Mathlib

/-!
Verification development for the KwirK IRC connection engine.

The definitions below are a shallow embedding of the TypeScript sources:

  * `src/networks/base/connection.ts` (the `IrcConnection` part):
    `onData`, `parseMessage`, `connectionSetup` / `send_login`,
    `reconnect`, `onClose`
  * `src/networks/irc/irc.ts` (the `IRC` network class):
    `next_server`, `findEnabled`, `disableCheck`, `onRegistered`,
    `addServer`, `serverExists`, `removeServer`

Byte buffers are modelled as `List Char` of ASCII characters (one char per
byte, line feed = the char with code 10); all inputs used in the theorems
are ASCII, where the utf8 decoding performed by `Buffer.toString` is the
identity on bytes.
-/

namespace Kwirk

/-- Whitespace class of the JavaScript regex escape for spaces and of
`String.prototype.trim`, restricted to the ASCII range (the inputs in this
development are ASCII, so the Unicode members of the class never occur). -/
def jsSpace (c : Char) : Bool :=
  c = ' ' || c = '\t' || c = '\n' || c = '\x0D' || c = '\x0B' || c = '\x0C'

/-- JavaScript `String.prototype.trim`: drop leading and trailing
whitespace characters. -/
def jsTrim (l : List Char) : List Char :=
  ((l.dropWhile jsSpace).reverse.dropWhile jsSpace).reverse

/-! ## LineFramer: `IrcConnection.onData` (connection.ts lines 220-283)

The `onData` handler scans the incoming chunk for line-feed bytes (`0x0A`),
collecting the bytes between them as complete lines and the bytes after the
last line feed as the trailing remainder (`line_start < data_pos`).
-/

/-- Accumulator-based scan of a chunk: `cur` holds the bytes of the current
line read so far, in reverse. Returns the list of complete (line-feed
terminated) lines and the unterminated remainder. This mirrors the scanning
loop of `onData`, where each `0x0A` byte pushes `data.slice(line_start,
data_pos)` and the remainder is `data.slice(line_start)`. -/
def splitLFAux (cur : List Char) : List Char → List (List Char) × List Char
  | [] => ([], cur.reverse)
  | c :: rest =>
    if c = '\n' then
      let (ls, rem) := splitLFAux [] rest
      (cur.reverse :: ls, rem)
    else
      splitLFAux (c :: cur) rest

/-- Split a chunk at line-feed bytes: complete lines and trailing remainder. -/
def splitLF (data : List Char) : List (List Char) × List Char :=
  splitLFAux [] data

/-- Framer state held on the `IrcConnection` instance: `held_data` (a byte
buffer, `undefined` initially and `null` after a merge, both modelled as
`none`) and `hold_last` (`undefined` initially, modelled as `false`). -/
structure FramerState where
  heldData : Option (List Char)
  holdLast : Bool
  deriving DecidableEq, Repr

/-- The initial framer state of a fresh `IrcConnection`. -/
def FramerState.init : FramerState := ⟨none, false⟩

/-- Observable side effects of `onData`. `emitBufferError` is the
`bot.emit('error', 'Message buffer too large')` call and `destroySocket`
is `socket.destroy()`; the code performs them together on overflow. -/
inductive FrameEvent where
  | emitBufferError
  | destroySocket
  deriving DecidableEq, Repr

/-- Result of one `onData` call: the new framer state, the decoded lines
passed to `parseMessage` (in order), and the emitted events. -/
structure DataResult where
  state : FramerState
  parsed : List String
  events : List FrameEvent
  deriving DecidableEq, Repr

/-- Length of the held buffer: `this.held_data ? this.held_data.length : 0`. -/
def heldLen (st : FramerState) : Nat :=
  match st.heldData with
  | some h => h.length
  | none => 0

/-- The maximum buffer size constant of `onData` (1024 bytes). -/
def max_buffer_size : Nat := 1024

/-- Shallow embedding of `IrcConnection.onData` (connection.ts 220-283).

Control flow of the source, in order:
  * split the chunk at `0x0A` bytes into `lines` and the remainder;
  * if `lines` is empty (`!lines[0]`): on `held.length + data.length >
    1024` emit the buffer error and destroy the socket (state unchanged),
    else append the chunk to `held_data` — note the source does NOT set
    `hold_last` in this branch;
  * otherwise, if `hold_last && held_data !== null`, prepend `held_data`
    to the first line and clear both fields (`hold_last = false`,
    `held_data = null`);
  * if a remainder exists (`line_start < data_pos`): on `remainder.length
    > 1024` emit the buffer error, destroy the socket and return without
    parsing any line; else store the remainder with `hold_last = true`;
  * finally decode each line (`toString(encoding)`, identity on the ASCII
    inputs used here) and hand it to `parseMessage`.

The `held_data !== null` guard is modelled as `isSome`; in the source the
initial `undefined` also passes that guard, but only together with
`hold_last = true`, which never holds while `held_data` is unset.
`onDataAux` is the body after the scanning loop, taking the computed
complete lines and remainder as arguments. -/
def onDataAux (st : FramerState) (data : List Char) :
    List (List Char) → List Char → DataResult
  | [], _ =>
    if heldLen st + data.length > max_buffer_size then
      ⟨st, [], [.emitBufferError, .destroySocket]⟩
    else
      ⟨⟨some ((st.heldData.getD []) ++ data), st.holdLast⟩, [], []⟩
  | l0 :: lrest, rem =>
    let merge := st.holdLast && st.heldData.isSome
    let st1 := if merge then FramerState.init else st
    let lines1 :=
      if merge then ((st.heldData.getD []) ++ l0) :: lrest else l0 :: lrest
    if rem ≠ [] then
      if rem.length > max_buffer_size then
        ⟨st1, [], [.emitBufferError, .destroySocket]⟩
      else
        ⟨⟨some rem, true⟩, lines1.map (⟨·⟩), []⟩
    else
      ⟨st1, lines1.map (⟨·⟩), []⟩

def onData (st : FramerState) (data : List Char) : DataResult :=
  onDataAux st data (splitLF data).1 (splitLF data).2

/-! ## MessageParser: `IrcConnection.parseMessage` (connection.ts 469-509)

The source matches the line against

  `^(?:(?:(?:@([^ ]+) )?):(?:([^\s!]+)|([^\s!]+)!([^\s@]+)@?([^\s]+)?) )?(\S+)(?: (?!:)(.+?))?(?: :(.*))?$`

and builds `msg_obj` from the capture groups. The functions below replay
that regex; every quantifier of the regex stops at a literal space or at a
whitespace-class boundary, so the greedy runs are pinned to their maximal
extent (giving back characters always places a non-space character where
the regex then requires a literal space) and the lazy `(.+?)` stops at the
first occurrence of a space-colon pair. Lines handed to `parseMessage`
never contain a line feed (the framer splits on it), so the fact that the
regex dot does not match a line feed is not modelled. -/

/-- Character class of the regex piece for the bare-source and nick runs:
not whitespace and not an exclamation mark. -/
def notSpaceNotBang (c : Char) : Bool := !jsSpace c && c != '!'

/-- Character class of the ident run: not whitespace and not an at sign. -/
def notSpaceNotAt (c : Char) : Bool := !jsSpace c && c != '@'

/-- Character class of the command and hostname runs: not whitespace. -/
def notSpace (c : Char) : Bool := !jsSpace c

/-- One message tag as built by the source: `{ tag: tag[0], value: tag[1] }`
where `tag` is the split of the raw tag text on every equals sign; a tag
with no equals sign has an undefined (`none`) value. -/
structure Tag where
  tag : String
  value : Option String
  deriving DecidableEq, Repr

/-- The `msg_obj` record built by `parseMessage`. The source field `prefix`
is modelled as `prefixVal`. Fields that the source leaves `undefined`
(`prefix`, `nick` when no capture applies) are `Option`s; `ident` and
`hostname` are defaulted to the empty string by the source itself. -/
structure MsgObj where
  tags : List Tag
  prefixVal : Option String
  nick : Option String
  ident : String
  hostname : String
  command : String
  params : List String
  deriving DecidableEq, Repr

/-- Capture groups of a successful match of the message regex. -/
structure RegexGroups where
  g1 : Option (List Char)
  g2 : Option (List Char)
  g3 : Option (List Char)
  g4 : Option (List Char)
  g5 : Option (List Char)
  g6 : List Char
  g7 : Option (List Char)
  g8 : Option (List Char)
  deriving DecidableEq, Repr

/-- Captures of the prefix alternation: either the bare source (group 2) or
the full nick-ident-hostname mask (groups 3, 4, 5). -/
structure PrefixGroups where
  g2 : Option (List Char)
  g3 : Option (List Char)
  g4 : Option (List Char)
  g5 : Option (List Char)
  deriving DecidableEq, Repr

/-- The optional tags piece `(?:@([^ ]+) )?`: an at sign, a maximal
nonempty run of non-space characters, then a literal space. Only the
maximal run can be followed by the required space. -/
def matchTags (l : List Char) : Option (List Char × List Char) :=
  match l with
  | '@' :: rest =>
    let (run, rest1) := rest.span (fun c => c != ' ')
    if run.isEmpty then none
    else
      match rest1 with
      | ' ' :: rest2 => some (run, rest2)
      | _ => none
  | _ => none

/-- The prefix piece `:(?:([^\s!]+)|([^\s!]+)!([^\s@]+)@?([^\s]+)?) `.
The first alternative applies when the maximal source run is followed
directly by a space; the second when it is followed by an exclamation
mark, after which the ident run, an optional at sign and an optional
hostname run must lead to a space. The hostname capture is absent exactly
when no at sign follows the ident or the at sign is followed directly by
the space. -/
def matchPrefixPart (l : List Char) : Option (PrefixGroups × List Char) :=
  match l with
  | ':' :: rest =>
    let (src, r1) := rest.span notSpaceNotBang
    if src.isEmpty then none
    else
      match r1 with
      | ' ' :: r2 => some (⟨some src, none, none, none⟩, r2)
      | '!' :: r2 =>
        let (id, r3) := r2.span notSpaceNotAt
        if id.isEmpty then none
        else
          match r3 with
          | '@' :: r4 =>
            let (host, r5) := r4.span notSpace
            (match r5 with
             | ' ' :: r6 =>
               some (⟨none, some src, some id,
                      if host.isEmpty then none else some host⟩, r6)
             | _ => none)
          | ' ' :: r4 => some (⟨none, some src, some id, none⟩, r4)
          | _ => none
      | _ => none
  | _ => none

/-- The lazy middle-parameter run: `(.+?)` expands until the rest of the
line is empty or starts with a space-colon pair, which the optional
trailing piece ` :(.*)` then consumes. Returns the middle text and, when
the space-colon pair was found, the trailing capture. -/
def lazyScan (acc : List Char) : List Char → List Char × Option (List Char)
  | ' ' :: ':' :: rest => (acc.reverse, some rest)
  | c :: rest => lazyScan (c :: acc) rest
  | [] => (acc.reverse, none)

/-- The command and parameter pieces `(\S+)(?: (?!:)(.+?))?(?: :(.*))?$`:
a maximal nonempty non-whitespace command run, then either end of line, or
a space followed by a colon (the middle piece is blocked by its negative
lookahead and the trailing piece captures the rest), or a space followed
by the lazy middle capture and optional trailing capture. If the command
run is followed by a whitespace character other than a space, or a lone
space ends the line, no production matches. -/
def commandParams (rest : List Char) :
    Option (List Char × Option (List Char) × Option (List Char)) :=
  let (cmd, r1) := rest.span notSpace
  if cmd.isEmpty then none
  else
    match r1 with
    | [] => some (cmd, none, none)
    | ' ' :: r2 =>
      (match r2 with
       | [] => none
       | ':' :: r3 => some (cmd, none, some r3)
       | c :: r3 =>
         let (mid, trail) := lazyScan [c] r3
         some (cmd, some mid, trail))
    | _ => none

/-- The full message regex. The leading group (tags and prefix) is
optional: if it fails, or if it matches but the command part then fails,
the engine falls back to matching the command part from the start of the
line (retrying the outer group without its tags piece only succeeds when
the line starts with a colon, which `matchPrefixPart` handles directly). -/
def execMsgRegex (l : List Char) : Option RegexGroups :=
  let withPrefix (tags : Option (List Char)) (pg : PrefixGroups)
      (rest : List Char) : Option RegexGroups :=
    match commandParams rest with
    | some (cmd, g7, g8) => some ⟨tags, pg.g2, pg.g3, pg.g4, pg.g5, cmd, g7, g8⟩
    | none => none
  let withG : Option RegexGroups :=
    match matchTags l with
    | some (tagsRun, rest) =>
      (match matchPrefixPart rest with
       | some (pg, rest1) => withPrefix (some tagsRun) pg rest1
       | none => none)
    | none =>
      (match matchPrefixPart l with
       | some (pg, rest1) => withPrefix none pg rest1
       | none => none)
  match withG with
  | some g => some g
  | none =>
    match commandParams l with
    | some (cmd, g7, g8) => some ⟨none, none, none, none, none, cmd, g7, g8⟩
    | none => none

/-- The `replace(/^\r+|\r+$/, '')` call: without a global flag only the
first match is replaced — the leading run of carriage returns when the
line starts with one, otherwise the trailing run (if any). -/
def stripCR (l : List Char) : List Char :=
  if l.head? = some '\x0D' then l.dropWhile (fun c => c = '\x0D')
  else (l.reverse.dropWhile (fun c => c = '\x0D')).reverse

/-- JavaScript `split` on a single-character separator: every occurrence
separates, empty fields are kept. -/
def splitCharAux (sep : Char) (cur : List Char) : List Char → List (List Char)
  | [] => [cur.reverse]
  | c :: rest =>
    if c = sep then cur.reverse :: splitCharAux sep [] rest
    else splitCharAux sep (c :: cur) rest

/-- Split a character list at every occurrence of the separator. -/
def splitChar (sep : Char) (l : List Char) : List (List Char) :=
  splitCharAux sep [] l

/-- Split one raw tag on every equals sign and keep the first two pieces,
as `tags[i].split('=')` followed by `{ tag: tag[0], value: tag[1] }` does. -/
def toTag (t : List Char) : Tag :=
  match splitChar '=' t with
  | [] => ⟨"", none⟩
  | [x] => ⟨⟨x⟩, none⟩
  | x :: y :: _ => ⟨⟨x⟩, some ⟨y⟩⟩

/-- Accumulator worker for the space-run split: `cur` is `some` reversed
field while inside a field and `none` while inside a separator run of
spaces (whose remaining spaces are skipped without emitting fields). -/
def splitRunsAux (cur : Option (List Char)) : List Char → List (List Char)
  | [] =>
    (match cur with
     | some c => [c.reverse]
     | none => [[]])
  | ' ' :: rest =>
    (match cur with
     | some c => c.reverse :: splitRunsAux none rest
     | none => splitRunsAux none rest)
  | c :: rest =>
    (match cur with
     | some cs => splitRunsAux (some (c :: cs)) rest
     | none => splitRunsAux (some [c]) rest)

/-- JavaScript `split(/ +/)`: separators are maximal runs of spaces; a
leading or trailing run produces an empty field, interior runs do not. -/
def splitSpaceRuns (l : List Char) : List (List Char) :=
  splitRunsAux (some []) l

/-- Outcome of one `parseMessage` call. A falsy (empty) line returns
before any work; a line the regex rejects is logged as malformed and
dropped; otherwise the `msg_obj` record is built — and then, in the
source, simply discarded: the function ends without passing it anywhere. -/
inductive ParseOutcome where
  | empty
  | malformed
  | parsed (msg : MsgObj)
  deriving DecidableEq, Repr

/-- Shallow embedding of `IrcConnection.parseMessage` (connection.ts
469-509): falsy-line early return, `trim`, the single carriage-return
replacement, the regex match, tag splitting, and the `msg_obj` fields
including the space-run split of the middle parameters and the
trailing-whitespace strip of the trailing parameter (which is only pushed
when it is a truthy, that is nonempty, string). -/
def parseMessage (line : String) : ParseOutcome :=
  if line = "" then .empty
  else
    let l := stripCR (jsTrim line.data)
    match execMsgRegex l with
    | none => .malformed
    | some g =>
      let tags : List Tag :=
        match g.g1 with
        | some ts => (splitChar ';' ts).map toTag
        | none => []
      .parsed {
        tags := tags
        prefixVal := g.g2.map (⟨·⟩)
        nick :=
          match g.g3 with
          | some n => some (String.mk n)
          | none => g.g2.map (⟨·⟩)
        ident := String.mk (g.g4.getD [])
        hostname := String.mk (g.g5.getD [])
        command := ⟨g.g6⟩
        params :=
          (match g.g7 with
           | some m => (splitSpaceRuns m).map (⟨·⟩)
           | none => []) ++
          (match g.g8 with
           | some t =>
             if t = [] then []
             else [String.mk ((t.reverse.dropWhile jsSpace).reverse)]
           | none => []) }

/-- Effects observable at the collaborator boundary of one `parseMessage`
call. The `dispatch` constructor exists so that forwarding of a parsed
message could be stated; the source performs no such call. -/
inductive ConnEffect where
  | logWarnMalformed
  | dispatch (m : MsgObj)
  deriving DecidableEq, Repr

/-- The effects `parseMessage` performs: a warning log for a malformed
line and nothing else — in particular the built `msg_obj` is not passed to
any dispatch boundary, the function returns right after building it. -/
def parseMessageEffects (line : String) : List ConnEffect :=
  match parseMessage line with
  | .empty => []
  | .malformed => [.logWarnMalformed]
  | .parsed _ => []

/-! ## Handshake: `connectionSetup` and `send_login` (connection.ts 131-167
and 431-438)

After the connect acknowledgment, `connectionSetup` sets `_connected =
true` and then calls `send_cap_ls()`, `send_cap_end()`, `send_login()`.
Each `send` pushes its line followed by a carriage-return line-feed pair
onto the outbound buffer (the connected-and-socket guard holds throughout
the setup). `generate_nick` draws random letters for question-mark
placeholders, so its result is taken as a parameter here. -/

/-- Per-session configuration consumed by `send_login`. A `none` password
models the null default. -/
structure LoginConf where
  serverPassword : Option String
  networkPassword : Option String
  user : String
  realname : String
  modes : List String
  deriving DecidableEq, Repr

/-- JavaScript truthiness filter on an optional string: null and the empty
string are falsy. -/
def truthyStr : Option String → Option String
  | some "" => none
  | some s => some s
  | none => none

/-- The expression `this.server.password || this.network.password`
followed by the `if ( password )` guard: the first truthy of the two. -/
def effectivePassword (c : LoginConf) : Option String :=
  match truthyStr c.serverPassword with
  | some s => some s
  | none => truthyStr c.networkPassword

/-- Shallow embedding of `IrcConnection.send_login` (431-438): the lines
it pushes, in order — `PASS` when a password is configured, then `NICK`,
then `USER` with mode flag `8` when the invisibility mode is among the
configured modes and `0` otherwise. -/
def send_login (c : LoginConf) (generatedNick : String) : List String :=
  (match effectivePassword c with
   | some p => ["PASS " ++ p ++ "\r\n"]
   | none => []) ++
  ["NICK " ++ generatedNick ++ "\r\n",
   "USER " ++ c.user ++ " " ++ (if c.modes.contains "i" then "8" else "0")
     ++ " * :" ++ c.realname ++ "\r\n"]

/-- The lines `connectionSetup` (131-167) pushes after the transport
acknowledgment: `send_cap_ls()` (the literal has a trailing space), then
`send_cap_end()`, then the `send_login` lines. -/
def connectionSetupSends (c : LoginConf) (generatedNick : String) : List String :=
  ["CAP LS \r\n", "CAP END\r\n"] ++ send_login c generatedNick

/-- Stated from the words of the specification, for comparison with
`connectionSetupSends`: the claimed handshake order puts the optional
`PASS` line first, before the capability lines. -/
def specClaimedHandshake (c : LoginConf) (generatedNick : String) : List String :=
  (match effectivePassword c with
   | some p => ["PASS " ++ p ++ "\r\n"]
   | none => []) ++
  ["CAP LS \r\n", "CAP END\r\n", "NICK " ++ generatedNick ++ "\r\n",
   "USER " ++ c.user ++ " " ++ (if c.modes.contains "i" then "8" else "0")
     ++ " * :" ++ c.realname ++ "\r\n"]

/-! ## ReconnectScheduler: `reconnect`, `onClose`, `onError` (connection.ts
353-370, 304-313, 321-347)

The delay field written by `reconnect` is the reconnect delay the base
class initializes to 5000; the attempt counter starts at 0 and is
incremented only in the timed-out error arm once it has reached the
configured attempt ceiling. -/

/-- Session state of an `IrcConnection` relevant to reconnection. -/
structure ConnState where
  connected : Bool
  requestDisconnect : Bool
  reconnectDelay : Nat
  reconnectAttempts : Nat
  reconnectTimerInterval : Option Nat
  pongTimerRunning : Bool
  deriving DecidableEq, Repr

/-- A fresh connection: not connected, no disconnect requested, base delay
5000, zero reconnect attempts, no reconnect timer. -/
def ConnState.fresh : ConnState := ⟨false, false, 5000, 0, none, false⟩

/-- Shallow embedding of `IrcConnection.reconnect` (353-370):
`reconnect_delay = reconnect_delay * reconnect_attempts ||
reconnect_delay` — the product when it is truthy (nonzero), otherwise the
previous delay — and the timer is created with, or updated in place to,
that interval and started. -/
def reconnect (s : ConnState) : ConnState :=
  let d :=
    if s.reconnectDelay * s.reconnectAttempts = 0 then s.reconnectDelay
    else s.reconnectDelay * s.reconnectAttempts
  { s with reconnectDelay := d, reconnectTimerInterval := some d }

/-- Shallow embedding of `IrcConnection.onClose` (304-313): mark the
session disconnected, stop the pong timer, and reconnect unless the
disconnect was explicitly requested. -/
def onClose (s : ConnState) : ConnState :=
  let s1 := { s with connected := false, pongTimerRunning := false }
  if s.requestDisconnect then s1 else reconnect s1

/-- Effect of the unreachable and below-ceiling timed-out error arms:
`this.server.disable()`. -/
inductive ErrEffect where
  | disableServer
  deriving DecidableEq, Repr

/-- The timed-out arm of `IrcConnection.onError` (336-342): below the
attempt ceiling the current server is disabled; otherwise the attempt
counter is incremented and `reconnect()` runs with the new count. -/
def onErrorTimeout (s : ConnState) (connection_attempts : Nat) :
    ConnState × List ErrEffect :=
  if s.reconnectAttempts < connection_attempts then (s, [.disableServer])
  else (reconnect { s with reconnectAttempts := s.reconnectAttempts + 1 }, [])

/-! ## ServerPool: the `IRC` network class (irc.ts)

The `IrcServer` class itself is not among the given sources. Modelled from
the spec: a Server carries a host and an enabled/disabled flag (spec §3;
`enable()` and `disable()` set the flag, `enabled()` and `disabled()` read
it); its port, security flag, password and failure counter are not needed
by any claim. -/

/-- Modelled from the spec: the Server state owned by the pool — host and
enabled flag. -/
structure SrvState where
  host : String
  enabledFlag : Bool
  deriving DecidableEq, Repr

/-- Modelled from the spec: the server configuration options that
`addServer` turns into a Server — the host and the initial enabled flag. -/
structure SrvOptions where
  host : String
  enabled : Bool
  deriving DecidableEq, Repr

/-- Modelled from the spec: `new IrcServer(this, serve)` stores the
configured host and enabled flag on the new Server. -/
def mkServer (opts : SrvOptions) : SrvState := ⟨opts.host, opts.enabled⟩

/-- Pool-related state of the `IRC` network class: the ordered server
array, the round-robin cursor `_index`, the network enable flag, the
auto-disable escalation state and timer, and the active server. -/
structure IrcState where
  servers : List SrvState
  index : Nat
  networkEnabled : Bool
  autoDisableTimes : Nat
  autoDisableInterval : Nat
  autoDisabledTimer : Option Nat
  activeServer : Option SrvState
  deriving DecidableEq, Repr

/-- Shallow embedding of `IRC.findEnabled` (irc.ts 381-385): the first
enabled server in array order. -/
def findEnabled (st : IrcState) : Option SrvState :=
  st.servers.find? (fun s => s.enabledFlag)

/-- Shallow embedding of `IRC.next_server` (irc.ts 298-338) for calls
without an explicit index. The cursor entry is read, the cursor advances
(`(_index + 1) % length || 0`, which is 0 for an empty array), and when
the entry exists but is disabled the first enabled server is returned
instead; if none is enabled the network is disabled, the escalation
counter increments, the interval is multiplied by the new counter
(`interval * times || interval`), and the auto-disable timer is armed with
that interval. -/
def next_server (st : IrcState) : Option SrvState × IrcState :=
  let server := st.servers.get? st.index
  let st1 := { st with
    index := if st.servers.length = 0 then 0
             else (st.index + 1) % st.servers.length }
  match server with
  | none => (none, st1)
  | some srv =>
    if srv.enabledFlag then (some srv, st1)
    else
      match findEnabled st1 with
      | some e => (some e, st1)
      | none =>
        let times := st1.autoDisableTimes + 1
        let interval :=
          if st1.autoDisableInterval * times = 0 then st1.autoDisableInterval
          else st1.autoDisableInterval * times
        (none, { st1 with networkEnabled := false, autoDisableTimes := times,
                          autoDisableInterval := interval,
                          autoDisabledTimer := some interval })

/-- The effect `disableCheck` has beyond the pool state: it calls
`this.connect()` to retry. -/
inductive PoolEffect where
  | connectAttempt
  deriving DecidableEq, Repr

/-- Shallow embedding of `IRC.disableCheck` (irc.ts 345-359), the
auto-disable timer callback: re-enable the network, enable every server,
attempt `connect()`, and clear the timer reference. -/
def disableCheck (st : IrcState) : IrcState × List PoolEffect :=
  ({ st with networkEnabled := true,
             servers := st.servers.map (fun s => { s with enabledFlag := true }),
             autoDisabledTimer := none },
   [.connectAttempt])

/-- Shallow embedding of the pool-related part of `IRC.onRegistered`
(irc.ts 366-375): the escalation counter and interval return to their base
values. The source also restores `connection_attempts` from the options
and joins the configured channels, which lie outside the modelled state. -/
def onRegistered (st : IrcState) : IrcState :=
  { st with autoDisableTimes := 0, autoDisableInterval := 180000 }

/-- Shallow embedding of `IRC.serverExists` (irc.ts 95-105) on a host
string: the double negation of `_.find` — some server with an equal host
exists. -/
def serverExists (st : IrcState) (host : String) : Bool :=
  (st.servers.find? (fun s => s.host = host)).isSome

/-- Outcome of `addServer`: on a duplicate host the source emits a
server-exists notification and passes an Error to the callback; otherwise
the server is appended and the callback receives it. -/
inductive AddOutcome where
  | added
  | duplicate
  deriving DecidableEq, Repr

/-- Shallow embedding of `IRC.addServer` (irc.ts 72-88): construct the
Server, and either report a duplicate host leaving the array unchanged or
push the new Server. -/
def addServer (st : IrcState) (opts : SrvOptions) : IrcState × AddOutcome :=
  let server := mkServer opts
  if serverExists st server.host then (st, .duplicate)
  else ({ st with servers := st.servers ++ [server] }, .added)

/-- Shallow embedding of `IRC.removeServer` (irc.ts 174-184). When the
server is present (`indexOf >= 0`; the reference comparison of the source
is modelled as structural equality), the source computes
`this.servers.slice( indexOf, 1 )` — `Array.prototype.slice` returns a
fresh array and does not mutate, and the result is discarded — and, when
the removed server is the active one, clears `active_server` and triggers
`jump()` (the returned flag). -/
def removeServer (st : IrcState) (server : SrvState) : IrcState × Bool :=
  if server ∈ st.servers then
    if st.activeServer = some server then
      ({ st with activeServer := none }, true)
    else (st, false)
  else (st, false)

/-! ## Scenario states and derived steppers used by the theorems -/

/-- The state transition of one `next_server()` call. -/
def poolStep (st : IrcState) : IrcState := (next_server st).2

/-- The server returned by the `n`-th `next_server()` call (counting from
0) in a run of successive calls from `st`. -/
def selectionAt (st : IrcState) (n : Nat) : Option SrvState :=
  (next_server (poolStep^[n] st)).1

/-- The pool of the round-robin scenario: A disabled, B and C enabled,
cursor at the start, no escalation yet. -/
def demoPool : IrcState :=
  ⟨[⟨"A", false⟩, ⟨"B", true⟩, ⟨"C", true⟩], 0, true, 0, 180000, none, none⟩

/-- A pool whose only server is disabled: every selection finds no enabled
server and escalates the auto-disable backoff. -/
def allDisabledPool : IrcState :=
  ⟨[⟨"A", false⟩], 0, true, 0, 180000, none, none⟩

/-- The state reached after one `addServer` call (the emitted notification
and callback outcome dropped). -/
def addServerState (st : IrcState) (opts : SrvOptions) : IrcState :=
  (addServer st opts).1

/-- The scenario line of the parser claims. -/
def c8line : String := "@tag=val :nick!ident@host COMMAND p1 p2 :trailing with spaces"

/-! ## Theorems for the claims -/

/-- C1: evaluating the code at the failing input. Feeding the chunks
`"PI"` then `"NG :abc\r\n"` does NOT reproduce the single-chunk result:
the first chunk is stored in `held_data` but the branch never sets
`hold_last`, so the merge step is skipped and the second chunk is parsed
alone, yielding one message with command `NG` — while the whole sequence
fed as one chunk yields the claimed single `PING` message with params
`["abc"]`. -/
theorem onData_chunked_feed_loses_held_data :
    (onData FramerState.init "PI".data).parsed = [] ∧
    (onData FramerState.init "PI".data).state = ⟨some "PI".data, false⟩ ∧
    ((onData (onData FramerState.init "PI".data).state "NG :abc\r\n".data).parsed.map
        parseMessage) =
      [.parsed ⟨[], none, none, "", "", "NG", ["abc"]⟩] ∧
    ((onData FramerState.init "PING :abc\r\n".data).parsed.map parseMessage) =
      [.parsed ⟨[], none, none, "", "", "PING", ["abc"]⟩] ∧
    ("NG" : String) ≠ "PING" := by
  refine ⟨?_, ?_, ?_, ?_, ?_⟩ <;> decide

/-- C2: evaluating the code at the failing input. `parseMessage`
successfully parses the line `PING :abc` into a structured message, yet
its effect trace is empty — the built `msg_obj` is discarded, and no call
of `parseMessage` ever produces a dispatch effect. -/
theorem parseMessage_builds_then_discards :
    parseMessage "PING :abc" =
      .parsed ⟨[], none, none, "", "", "PING", ["abc"]⟩ ∧
    parseMessageEffects "PING :abc" = [] ∧
    ∀ (line : String) (m : MsgObj),
      ConnEffect.dispatch m ∉ parseMessageEffects line := by
  refine ⟨by decide, by decide, ?_⟩
  intro line m h
  unfold parseMessageEffects at h
  cases hp : parseMessage line <;> rw [hp] at h <;> simp at h

/-- C8 counterexample: on the scenario line the full-mask alternative of
the regex leaves the bare-source capture (group 2, the `prefix` field)
undefined, so `prefix` is not the nick — refuting the claim that prefix
and nick both equal `nick`. -/
theorem parseMessage_c8_prefix_not_nick :
    parseMessage c8line =
      .parsed ⟨[⟨"tag", some "val"⟩], none, some "nick", "ident", "host",
               "COMMAND", ["p1", "p2", "trailing with spaces"]⟩ ∧
    (none : Option String) ≠ some "nick" :=
  ⟨by decide, by decide⟩

/-- C8 amended: parsing the scenario line yields tags `[{tag, val}]`, an
undefined prefix, nick `nick`, ident `ident`, hostname `host`, command
`COMMAND` and params `["p1", "p2", "trailing with spaces"]`. -/
theorem parseMessage_c8_fields :
    parseMessage c8line =
      .parsed { tags := [⟨"tag", some "val"⟩], prefixVal := none,
                nick := some "nick", ident := "ident", hostname := "host",
                command := "COMMAND",
                params := ["p1", "p2", "trailing with spaces"] } := by
  decide

/-- C3 counterexample: with a configured password the code sends
`CAP LS `, `CAP END`, `PASS`, `NICK`, `USER` — not the claimed order with
`PASS` first. -/
theorem connectionSetup_pass_after_cap :
    connectionSetupSends ⟨some "pw", none, "KwirK", "KwirK IRC Bot", ["i"]⟩ "kwirk" =
      ["CAP LS \r\n", "CAP END\r\n", "PASS pw\r\n", "NICK kwirk\r\n",
       "USER KwirK 8 * :KwirK IRC Bot\r\n"] ∧
    specClaimedHandshake ⟨some "pw", none, "KwirK", "KwirK IRC Bot", ["i"]⟩ "kwirk" =
      ["PASS pw\r\n", "CAP LS \r\n", "CAP END\r\n", "NICK kwirk\r\n",
       "USER KwirK 8 * :KwirK IRC Bot\r\n"] ∧
    connectionSetupSends ⟨some "pw", none, "KwirK", "KwirK IRC Bot", ["i"]⟩ "kwirk" ≠
      specClaimedHandshake ⟨some "pw", none, "KwirK", "KwirK IRC Bot", ["i"]⟩ "kwirk" := by
  refine ⟨by decide, by decide, by decide⟩

/-- C3 amended: on transport connect acknowledgment the handshake lines go
out in the order `CAP LS ` (with its trailing space), `CAP END`, then
`PASS <password>` only when a password is configured on the server or the
network, then `NICK <generated-nick>`, then `USER <user> <mode-flag> *
:<realname>` with mode-flag `8` when the invisibility mode `i` is among
the configured modes and `0` otherwise. -/
theorem connectionSetupSends_order (c : LoginConf) (gn : String) :
    connectionSetupSends c gn =
      "CAP LS \r\n" :: "CAP END\r\n" ::
        ((match effectivePassword c with
          | some p => ["PASS " ++ p ++ "\r\n"]
          | none => []) ++
         ["NICK " ++ gn ++ "\r\n",
          "USER " ++ c.user ++ " " ++
            (if c.modes.contains "i" then "8" else "0") ++ " * :" ++
            c.realname ++ "\r\n"]) := by
  cases h : effectivePassword c <;>
    simp [connectionSetupSends, send_login, h]

/-- A chunk without a line-feed byte scans to no complete line, with all
bytes joining the current partial line. -/
theorem splitLFAux_no_lf (cur : List Char) (data : List Char)
    (h : '\n' ∉ data) : splitLFAux cur data = ([], cur.reverse ++ data) := by
  induction data generalizing cur with
  | nil => simp [splitLFAux]
  | cons c rest ih =>
    have hc : ¬ c = '\n' := fun hc => h (hc ▸ List.mem_cons_self c rest)
    have hr : '\n' ∉ rest := fun hr => h (List.mem_cons_of_mem c hr)
    simp [splitLFAux, hc, ih _ hr]

/-- Whenever `onData` raises the overflow events it extracts and parses no
line from the chunk: both overflow branches return before the parse loop. -/
theorem onData_events_imp_no_parse (st : FramerState) (d : List Char)
    (hne : (onData st d).events ≠ []) : (onData st d).parsed = [] := by
  unfold onData at hne ⊢
  rcases hsp : splitLF d with ⟨lines, rem⟩
  rw [hsp] at hne
  cases lines with
  | nil =>
    by_cases hc : heldLen st + d.length > max_buffer_size
    · simp [onDataAux, hc]
    · simp [onDataAux, hc] at hne
  | cons l0 lrest =>
    by_cases h1 : rem = []
    · simp [onDataAux, h1] at hne
    · by_cases h2 : rem.length > max_buffer_size
      · simp [onDataAux, h1, h2]
      · simp [onDataAux, h1, h2] at hne

/-- C7: when the held partial line plus an incoming chunk that contains no
line terminator would exceed the 1024-byte bound, `onData` emits the
buffer-too-large error and destroys the socket exactly once, parses no
line from the chunk and leaves the framer state (including the held data)
unchanged; and in general a chunk that raises the overflow events never
has lines extracted and parsed. -/
theorem onData_overflow_guard (st : FramerState) (data : List Char)
    (hlf : '\n' ∉ data) (hover : heldLen st + data.length > max_buffer_size) :
    (onData st data).events =
      [FrameEvent.emitBufferError, FrameEvent.destroySocket] ∧
    (onData st data).parsed = [] ∧
    (onData st data).state = st ∧
    ∀ (st2 : FramerState) (d2 : List Char),
      (onData st2 d2).events ≠ [] → (onData st2 d2).parsed = [] := by
  have hsplit : splitLF data = ([], data) := by
    simpa [splitLF] using splitLFAux_no_lf [] data hlf
  refine ⟨?_, ?_, ?_, fun st2 d2 => onData_events_imp_no_parse st2 d2⟩ <;>
    simp [onData, hsplit, onDataAux, hover]

/-- C7 witness: a fresh framer fed 1025 bytes with no terminator
overflows the bound and parses nothing. -/
theorem onData_overflow_guard_witness :
    (onData FramerState.init (List.replicate 1025 'a')).events =
      [FrameEvent.emitBufferError, FrameEvent.destroySocket] ∧
    (onData FramerState.init (List.replicate 1025 'a')).parsed = [] := by
  have h := onData_overflow_guard FramerState.init (List.replicate 1025 'a')
    (fun hmem => absurd (List.eq_of_mem_replicate hmem) (by decide))
    (by rw [heldLen, List.length_replicate]; decide)
  exact ⟨h.1, h.2.1⟩

/-- C10: `removeServer` never changes the server array (the source calls
the non-mutating `slice` and discards its result) or any other pool
field; the only state change is clearing `active_server` — together with
triggering `jump()` — exactly when the given server is present and is the
active one. -/
theorem removeServer_preserves_pool (st : IrcState) (server : SrvState) :
    (removeServer st server).1.servers = st.servers ∧
    (removeServer st server).1.index = st.index ∧
    (removeServer st server).1.networkEnabled = st.networkEnabled ∧
    (removeServer st server).1.autoDisableTimes = st.autoDisableTimes ∧
    (removeServer st server).1.autoDisableInterval = st.autoDisableInterval ∧
    (removeServer st server).1.autoDisabledTimer = st.autoDisabledTimer ∧
    ((removeServer st server).1.activeServer =
      if server ∈ st.servers ∧ st.activeServer = some server then none
      else st.activeServer) ∧
    ((removeServer st server).2 = true ↔
      server ∈ st.servers ∧ st.activeServer = some server) := by
  unfold removeServer
  split_ifs with h1 h2 <;> simp_all

/-- A host is reported as existing exactly when a server in the array has
that host. -/
theorem serverExists_iff (st : IrcState) (h : String) :
    serverExists st h = true ↔ h ∈ st.servers.map SrvState.host := by
  simp [serverExists, List.find?_isSome, List.mem_map]

/-- One `addServer` call preserves distinctness of the hosts. -/
theorem addServer_nodup (st : IrcState) (o : SrvOptions)
    (h : (st.servers.map SrvState.host).Nodup) :
    ((addServerState st o).servers.map SrvState.host).Nodup := by
  unfold addServerState addServer
  by_cases he : serverExists st (mkServer o).host = true
  · simpa [he] using h
  · have hx : (mkServer o).host ∉ st.servers.map SrvState.host := by
      rw [← serverExists_iff]; simpa using he
    simp [he, List.nodup_append, h, hx]

/-- C9: host uniqueness is an invariant of the pool — from any state with
pairwise-distinct hosts, any sequence of `addServer` calls keeps the
hosts pairwise distinct, because a duplicate host is rejected (the source
emits the server-exists notification and passes an Error to the callback)
with the array left unchanged. -/
theorem addServer_unique_hosts (st : IrcState) (ops : List SrvOptions)
    (h : (st.servers.map SrvState.host).Nodup) :
    (((ops.foldl addServerState st).servers.map SrvState.host).Nodup) ∧
    ∀ o : SrvOptions, serverExists st (mkServer o).host = true →
      addServer st o = (st, AddOutcome.duplicate) := by
  constructor
  · induction ops generalizing st with
    | nil => simpa using h
    | cons o rest ih =>
      rw [List.foldl_cons]
      exact ih _ (addServer_nodup st o h)
  · intro o ho
    simp [addServer, ho]

/-- C9 witness: adding hosts a, a, b to an empty pool keeps the host list
duplicate-free (the second a is rejected). -/
theorem addServer_unique_hosts_witness :
    ((([⟨"a", true⟩, ⟨"a", true⟩, ⟨"b", true⟩] : List SrvOptions).foldl
        addServerState ⟨[], 0, true, 0, 180000, none, none⟩).servers.map
      SrvState.host).Nodup :=
  (addServer_unique_hosts ⟨[], 0, true, 0, 180000, none, none⟩
    [⟨"a", true⟩, ⟨"a", true⟩, ⟨"b", true⟩] (by simp)).1

/-- Iterating a function whose p-th iterate fixes x only depends on the
iteration count modulo p. -/
theorem iterate_period {α : Type} (f : α → α) (x : α) (p : Nat) (hp : 0 < p)
    (hx : f^[p] x = x) (n : Nat) : f^[n] x = f^[n % p] x := by
  induction n using Nat.strong_induction_on with
  | _ n ih =>
    by_cases h : n < p
    · rw [Nat.mod_eq_of_lt h]
    · have hpn : p ≤ n := Nat.le_of_not_lt h
      calc f^[n] x = f^[(n - p) + p] x := by rw [Nat.sub_add_cancel hpn]
        _ = f^[n - p] (f^[p] x) := Function.iterate_add_apply f _ _ x
        _ = f^[n - p] x := by rw [hx]
        _ = f^[(n - p) % p] x := ih (n - p) (by omega)
        _ = f^[n % p] x := by rw [← Nat.mod_eq_sub_mod hpn]

/-- C4 counterexample: in the scenario pool the second selection returns B
again (the cursor, advanced to 1 by the first call, now reads the enabled
B directly), not C as the claimed B, C, B, C sequence requires. -/
theorem next_server_demo_second_is_B :
    (selectionAt demoPool 1).map SrvState.host = some "B" ∧
    ¬ (selectionAt demoPool 1).map SrvState.host = some "C" := by
  constructor <;> decide

/-- C4 amended: the cursor advances modulo the pool length on every
selection and a disabled cursor entry falls back to the first enabled
server in scan order, so for the pool A(disabled), B, C the selection
sequence is B, B, C repeating: the fallback returns B whenever the cursor
reads A, and B and C are returned directly from their own cursor slots. -/
theorem next_server_demo_sequence (n : Nat) :
    (selectionAt demoPool n).map SrvState.host =
      some (if n % 3 = 2 then "C" else "B") := by
  have hper : poolStep^[3] demoPool = demoPool := by decide
  have hmod := iterate_period poolStep demoPool 3 (by norm_num) hper n
  simp only [selectionAt]
  rw [hmod]
  have h3 : n % 3 = 0 ∨ n % 3 = 1 ∨ n % 3 = 2 := by omega
  rcases h3 with h | h | h <;> rw [h] <;> decide

/-- C5 counterexample: from a fresh session two close-driven reconnect
cycles both configure the base 5000 ms interval — the attempt counter is
still zero, so the second attempt does not get the claimed base times two. -/
theorem reconnect_second_close_interval_base :
    (onClose (onClose ConnState.fresh)).reconnectTimerInterval = some 5000 ∧
    (5000 : Nat) ≠ 5000 * 2 := by
  constructor <;> decide

/-- Close-driven reconnect cycles from a fresh session never change the
delay: the attempt counter stays zero, so the falsy product keeps the base
delay, and after the first cycle the state is a fixed point. -/
theorem onClose_iter_fresh (k : Nat) (hk : 1 ≤ k) :
    onClose^[k] ConnState.fresh = ⟨false, false, 5000, 0, some 5000, false⟩ := by
  induction k with
  | zero => omega
  | succ n ih =>
    rw [Function.iterate_succ_apply']
    by_cases h : n = 0
    · subst h; decide
    · rw [ih (by omega)]; decide

/-- C5 amended: the k-th close-driven reconnect attempt of a fresh session
(whose attempt counter, incremented only by the timed-out error arm past
the attempt ceiling, is still zero) configures the unmodified base delay
for every k; in general one `reconnect()` call with a nonzero stored delay
and nonzero attempt count multiplies the stored delay by the attempt
count — delays compound — and arms the timer with the product. -/
theorem reconnect_delay_recurrence (k d a : Nat) (hk : 1 ≤ k) (hd : 1 ≤ d)
    (ha : 1 ≤ a) :
    (onClose^[k] ConnState.fresh).reconnectTimerInterval = some 5000 ∧
    (reconnect ⟨false, false, d, a, none, false⟩).reconnectTimerInterval =
      some (d * a) ∧
    (reconnect ⟨false, false, d, a, none, false⟩).reconnectDelay = d * a := by
  have hda : d * a ≠ 0 := Nat.mul_ne_zero (by omega) (by omega)
  refine ⟨?_, ?_, ?_⟩
  · rw [onClose_iter_fresh k hk]
  · simp [reconnect, hda]
  · simp [reconnect, hda]

/-- C5 witness: the second close-driven attempt still uses 5000 ms, and a
reconnect with stored delay 5000 and attempt count 3 configures 15000 ms. -/
theorem reconnect_delay_recurrence_witness :
    (onClose^[2] ConnState.fresh).reconnectTimerInterval = some 5000 ∧
    (reconnect ⟨false, false, 5000, 3, none, false⟩).reconnectTimerInterval =
      some (5000 * 3) ∧
    (reconnect ⟨false, false, 5000, 3, none, false⟩).reconnectDelay = 5000 * 3 :=
  reconnect_delay_recurrence 2 5000 3 (by norm_num) (by norm_num) (by norm_num)

/-- C6 counterexample: at the third escalation the armed interval is
1080000 ms — the previous interval 360000 multiplied by the count 3 — and
not the claimed base 180000 times 3. -/
theorem auto_disable_third_escalation_interval :
    (poolStep^[3] allDisabledPool).autoDisabledTimer = some 1080000 ∧
    (1080000 : Nat) ≠ 180000 * 3 := by
  constructor <;> decide

/-- One escalating `next_server` call on the one-disabled-server pool:
the counter increments and the interval is multiplied by the new counter. -/
theorem poolStep_allDisabled_step (b t : Nat) (e : Bool) (tm : Option Nat) :
    poolStep ⟨[⟨"A", false⟩], 0, e, t, b, tm, none⟩ =
      ⟨[⟨"A", false⟩], 0, false, t + 1,
       if b * (t + 1) = 0 then b else b * (t + 1),
       some (if b * (t + 1) = 0 then b else b * (t + 1)), none⟩ := by
  simp [poolStep, next_server, findEnabled]

/-- Closed form of the escalation trajectory: after k selections that
find no enabled server the counter is k and the interval is the base
180000 multiplied by k factorial. -/
theorem poolStep_iter_allDisabled (k : Nat) :
    poolStep^[k] allDisabledPool =
      ⟨[⟨"A", false⟩], 0, k == 0, k, 180000 * Nat.factorial k,
       if k = 0 then none else some (180000 * Nat.factorial k), none⟩ := by
  induction k with
  | zero => decide
  | succ n ih =>
    rw [Function.iterate_succ_apply', ih, poolStep_allDisabled_step]
    have hne : 180000 * Nat.factorial n * (n + 1) ≠ 0 :=
      Nat.mul_ne_zero
        (Nat.mul_ne_zero (by norm_num) (Nat.factorial_ne_zero n))
        (Nat.succ_ne_zero n)
    have hfac : 180000 * Nat.factorial n * (n + 1) =
        180000 * Nat.factorial (n + 1) := by
      rw [Nat.factorial_succ]; ring
    simp [hne, hfac, Nat.factorial_ne_zero]

/-- C6 amended: the k-th time selection finds no enabled server, the
auto-disable timer is armed with the previous interval multiplied by the
escalation count — base 180000 times k factorial after k escalations, not
base times k — and the network is disabled; when the timer fires,
`disableCheck` re-enables the network and every server and attempts
`connect()`; successful registration resets the count to zero and the
interval to its base 180000. -/
theorem auto_disable_escalation (k : Nat) (hk : 1 ≤ k) (st : IrcState) :
    (poolStep^[k] allDisabledPool).autoDisabledTimer =
      some (180000 * Nat.factorial k) ∧
    (poolStep^[k] allDisabledPool).autoDisableTimes = k ∧
    (poolStep^[k] allDisabledPool).networkEnabled = false ∧
    ((disableCheck st).1.servers.all (fun s => s.enabledFlag)) = true ∧
    (disableCheck st).1.networkEnabled = true ∧
    (disableCheck st).2 = [PoolEffect.connectAttempt] ∧
    (onRegistered st).autoDisableTimes = 0 ∧
    (onRegistered st).autoDisableInterval = 180000 := by
  have hk0 : k ≠ 0 := by omega
  rw [poolStep_iter_allDisabled k]
  refine ⟨by simp [hk0], rfl, by simp [hk0], ?_, rfl, rfl, rfl, rfl⟩
  simp [disableCheck, List.all_eq_true, List.mem_map]

/-- C6 witness: the third escalation arms 180000 times 3 factorial, and
the fire and registration resets hold on the scenario pool. -/
theorem auto_disable_escalation_witness :
    (poolStep^[3] allDisabledPool).autoDisabledTimer =
      some (180000 * Nat.factorial 3) ∧
    (poolStep^[3] allDisabledPool).autoDisableTimes = 3 ∧
    (poolStep^[3] allDisabledPool).networkEnabled = false ∧
    ((disableCheck demoPool).1.servers.all (fun s => s.enabledFlag)) = true ∧
    (disableCheck demoPool).1.networkEnabled = true ∧
    (disableCheck demoPool).2 = [PoolEffect.connectAttempt] ∧
    (onRegistered demoPool).autoDisableTimes = 0 ∧
    (onRegistered demoPool).autoDisableInterval = 180000 :=
  auto_disable_escalation 3 (by norm_num) demoPool

end Kwirk
